import Mathlib

/-!
Verification development for the FinishedWorkbookGenerator repository
(`app.py`, `functions.py`): shallow embeddings of the core pure logic —
identity extraction (`parse_via_pdf`), fuzzy matching (`is_name_match` and
the Batch-mode matching loops), name splitting (`split_first_last`),
conflict scoring (`fill_conflict_docs_for_one`), page assembly
(`merge_custom_pages_by_index`) and pagination (`paginate_pdf`) — together
with theorems settling the specification claims.

Python strings are modelled as Lean `String`s operated on through their
underlying `List Char`, so every definition is executable by the kernel.
Python dicts iterated in insertion order are modelled as association
lists; a pandas row is modelled as a function from column name to the
cell's string value; PDF pages are modelled as lists (page assembly is
generic in the page type) or as a record of media-box dimensions plus
stamped overlays (pagination).  Side effects of the source (file I/O,
docx rendering, format conversion) are external collaborators and are
not part of the embedded logic.
-/

/-- Python's whitespace class for ASCII input (`\s`, `str.split()`, `str.strip()`):
space, tab, newline, carriage return, vertical tab, form feed. -/
def isPySpace (c : Char) : Bool :=
  c = ' ' || c = '\t' || c = '\n' || c = '\r' || c = '\x0b' || c = '\x0c'

/-- Python `str.strip()` on a list of characters: drop leading and trailing
whitespace. -/
def pyStripChars (cs : List Char) : List Char :=
  ((cs.dropWhile isPySpace).reverse.dropWhile isPySpace).reverse

/-- Python `str.strip()`. -/
def pyStrip (s : String) : String := String.mk (pyStripChars s.data)

/-- Python `str.split()` with no separator: split on whitespace runs, dropping
empty pieces. -/
def pyWords (cs : List Char) : List (List Char) :=
  (List.splitOnP isPySpace cs).filter (fun w => !w.isEmpty)

/-- `normalize_spaces` from `app.py`: `" ".join(s.split())`. -/
def normalize_spaces (s : String) : String :=
  String.mk (List.intercalate [' '] (pyWords s.data))

/-- The cleanup `parse_via_pdf` applies to the captured name line:
`.strip()` followed by `re.sub(r"\s+", " ", ·)`.  Stripping and then
collapsing every whitespace run to one space is exactly a single-space
join of the whitespace-separated words. -/
def viaCleanName (cs : List Char) : String :=
  String.mk (List.intercalate [' '] (pyWords (pyStripChars cs)))

/-- The literal banner the name-extraction regex of `parse_via_pdf` anchors on. -/
def VIA_MARKER : List Char := "VIA Character Strengths Profile".data

/-- The `re.search(r"^(.*?)\nVIA Character Strengths Profile", full_text,
re.MULTILINE)` of `parse_via_pdf`, on the text split into lines: the leftmost
match anchors `^` at the start of the first line whose successor line starts
with the marker; since `.` cannot cross the `\n`, the captured group is that
whole line. -/
def findNameLine : List (List Char) → Option (List Char)
  | [] => none
  | [_] => none
  | l :: next :: rest =>
    if VIA_MARKER.isPrefixOf next then some l else findNameLine (next :: rest)

/-- The name component of `parse_via_pdf`: the cleaned captured line, or the
sentinel `"Unknown"` when the regex finds no match. -/
def extract_name (fullText : String) : String :=
  match findNameLine (List.splitOn '\n' fullText.data) with
  | some l => viaCleanName l
  | none => "Unknown"

/-- `int()` on the digit group captured by the trait regex. -/
def digitsToNat (ds : List Char) : ℕ :=
  ds.foldl (fun n c => 10 * n + (c.toNat - 48)) 0

/-- When the greedy `\s+` of the trait regex has run to the end of the input,
the engine backtracks until `(.+)` has at least one non-newline character to
consume: the largest `k` with `1 ≤ k < ws.length` whose character `ws[k]` is
not a newline (all of `ws` is whitespace, so only a newline can block `.`). -/
def wsBacktrack (ws : List Char) : Option ℕ :=
  (List.range ws.length).reverse.find?
    (fun k => decide (1 ≤ k ∧ ws.getD k '\n' ≠ '\n'))

/-- One attempt of the trait regex `(\d+)\.\s+(.+)` of `parse_via_pdf` at the
current position: a greedy digit run (backtracking it cannot help, since any
shorter run is followed by a digit, not `.`), the literal dot, a greedy
whitespace run with backtracking, then the greedy rest-of-line group.  On
success, returns the `(int(rank), label.strip())` pair together with the text
remaining after the match. -/
def traitMatchAt (cs : List Char) : Option ((ℕ × String) × List Char) :=
  let ds := cs.takeWhile Char.isDigit
  let rest1 := cs.dropWhile Char.isDigit
  if ds.isEmpty then none
  else
    match rest1 with
    | '.' :: rest2 =>
      let ws := rest2.takeWhile isPySpace
      let rest3 := rest2.dropWhile isPySpace
      if ws.isEmpty then none
      else
        match rest3 with
        | _ :: _ =>
          -- maximal whitespace, then a non-whitespace (hence non-newline) char
          let label := rest3.takeWhile (fun c => !(c = '\n'))
          let rest4 := rest3.dropWhile (fun c => !(c = '\n'))
          some ((digitsToNat ds, String.mk (pyStripChars label)), rest4)
        | [] =>
          match wsBacktrack ws with
          | some k =>
            let label := (ws.drop k).takeWhile (fun c => !(c = '\n'))
            let rest4 := (ws.drop k).dropWhile (fun c => !(c = '\n'))
            some ((digitsToNat ds, String.mk (pyStripChars label)), rest4)
          | none => none
    | _ => none

/-- `re.findall` of the trait pattern: try each position left to right; on a
match, emit it and resume right after its end, otherwise advance one
character.  `fuel` starts at the input length; every step consumes at least
one character, so the fuel never runs out before the input does. -/
def traitScanAux : ℕ → List Char → List (ℕ × String)
  | 0, _ => []
  | _, [] => []
  | fuel + 1, c :: rest =>
    match traitMatchAt (c :: rest) with
    | some (t, rest') => t :: traitScanAux fuel rest'
    | none => traitScanAux fuel rest

/-- All trait matches of `parse_via_pdf`, in document order. -/
def traitScan (cs : List Char) : List (ℕ × String) := traitScanAux cs.length cs

/-- `parse_via_pdf` from `functions.py`, as a function of the full extracted
text (text extraction itself is the external PyMuPDF collaborator): the
participant name and the ranked trait list. -/
def parse_via_pdf (fullText : String) : String × List (ℕ × String) :=
  (extract_name fullText, traitScan fullText.data)

/-- One inner step of the edit-distance dynamic program: walking the target
characters, carrying the tail of the previous row, the diagonal value
`prev[j-1]` and the value `cur = new[j-1]` just produced, emit
`new[j] = if x = y then prev[j-1] else 1 + min (new[j-1]) (prev[j])`. -/
def indelRowAux (x : Char) : List Char → List ℕ → ℕ → ℕ → List ℕ
  | [], _, _, _ => []
  | y :: ys, prevTail, diag, cur =>
    let up := prevTail.headD 0
    let v := if x = y then diag else 1 + min cur up
    v :: indelRowAux x ys prevTail.tail up v

/-- Modelled from the spec: the similarity metric of the external `fuzzywuzzy`
library (`fuzz.ratio` is called by `is_name_match` but is not part of `src/`),
described as the "edit-distance-based ratio over the full strings, scaled
0–100".  `indelDist` is the insert/delete edit distance — the Levenshtein
distance with substitutions costing 2, the `ldist` of python-Levenshtein's
`ratio` — computed by the standard row-by-row dynamic program
(`d 0 j = j`, `d i 0 = i`,
`d i j = if s i = t j then d (i-1) (j-1) else 1 + min (d i (j-1)) (d (i-1) j)`). -/
def indelDist (s t : List Char) : ℕ :=
  let row0 := List.range (t.length + 1)
  let lastRow := s.foldl (fun prev x =>
    let first := prev.headD 0 + 1
    first :: indelRowAux x t prev.tail (prev.headD 0) first) row0
  lastRow.getLastD 0

/-- Modelled from the spec: `fuzz.ratio(s1, s2)`, the edit-distance-based
similarity `round(100 * (lensum - d) / lensum)` with `lensum` the total
length and `d` the insert/delete distance; `100` on two empty strings.
Rounding is half-up (the Python `int(round(·))` rounds half to even; the two
conventions agree on every value this development evaluates). -/
def fuzzSimilarity (s1 s2 : String) : ℕ :=
  let d := indelDist s1.data s2.data
  let lensum := s1.data.length + s2.data.length
  if lensum = 0 then 100 else (200 * (lensum - d) + lensum) / (2 * lensum)

/-- `is_name_match` from `functions.py`: similarity score meets the threshold
(default 80). -/
def is_name_match (name1 name2 : String) (threshold : ℕ := 80) : Bool :=
  threshold ≤ fuzzSimilarity name1 name2

/-- The first matching pass of Batch mode (`app.py`): for each roster name,
scan the uploaded documents in order and pair it with the first one whose
extracted name fuzzily matches, recording `(csv_name, pdf_name, pdf_filename)`;
the scan stops at the first hit (`break`). -/
def matched_pairs (csv_names : List String) (pdf_names : List (String × String)) :
    List (String × String × String) :=
  csv_names.filterMap fun csv_name =>
    (pdf_names.find? (fun fp => is_name_match csv_name fp.2)).map
      (fun fp => (csv_name, fp.2, fp.1))

/-- The second, independent matching pass of Batch mode: a document name is
classified as having a roster match when any roster name fuzzily matches it. -/
def pdf_has_csv_match (csv_names : List String) (pdf_name : String) : Bool :=
  csv_names.any (fun csv_name => is_name_match csv_name pdf_name)

/-- `missing_csv` of Batch mode: the extracted document names the second pass
left unmatched. -/
def missing_csv (csv_names : List String) (pdf_names : List (String × String)) :
    List String :=
  (pdf_names.filter (fun fp => !pdf_has_csv_match csv_names fp.2)).map (fun fp => fp.2)

/-- `SCORE_MAP` from `functions.py`, with the `.get(·, 0)` default for
unrecognized answers. -/
def SCORE_MAP (answer : String) : ℕ :=
  if answer = "Rarely" then 1
  else if answer = "Sometimes" then 2
  else if answer = "Often" then 3
  else if answer = "Always" then 4
  else 0

/-- `QUESTION_CATEGORIES` from `functions.py`, in insertion order. -/
def QUESTION_CATEGORIES : List (String × String) :=
  [("I discuss issues with others to try to find solutions that meet everyone\x27s needs.", "Collaborating"),
   ("I try to negotiate and use a give-and-take approach to problem situations.", "Compromising"),
   ("I try to meet the expectations of others.", "Accommodating"),
   ("I would argue my case and insist on the advantages of my point of view.", "Competing"),
   ("When there is a disagreement, I gather as much information as I can and keep the lines of communication open.", "Collaborating"),
   ("When I find myself in an argument, I usually say very little and try to leave as soon as possible.", "Avoiding"),
   ("I try to see conflicts from both sides. What do I need? What does the other person need? What are the issues involved?", "Collaborating"),
   ("I prefer to compromise when solving problems and just move on.", "Compromising"),
   ("I find conflicts exhilarating; I enjoy the battle of wits that usually follows.", "Competing"),
   ("Being in a disagreement with other people makes me feel uncomfortable and anxious.", "Avoiding"),
   ("I try to meet the wishes of my friends and family.", "Accommodating"),
   ("I can figure out what needs to be done and I am usually right.", "Competing"),
   ("To break deadlocks, I would meet people halfway.", "Compromising"),
   ("I may not get what I want but its a small price to pay for keeping the peace.", "Accommodating"),
   ("I avoid hard feelings by keeping my disagreements with others to myself.", "Avoiding")]

/-- The category-score accumulation of `fill_conflict_docs_for_one`: starting
from all-zero scores, walk `QUESTION_CATEGORIES` in order and, for every
question column present in the CSV, add the `SCORE_MAP` value of the row's
stripped answer to that question's category.  The Python dict of category
scores is modelled as a function from category name to total. -/
def category_scores (columns : List String) (row : String → String) : String → ℕ :=
  QUESTION_CATEGORIES.foldl
    (fun scores qc =>
      if qc.1 ∈ columns then
        fun c => if c = qc.2 then scores c + SCORE_MAP (pyStrip (row qc.1)) else scores c
      else scores)
    (fun _ => 0)

/-- The template context built by `fill_conflict_docs_for_one`. -/
structure ConflictContext where
  name : String
  Col : ℕ
  Com : ℕ
  Avo : ℕ
  Acc : ℕ
  Co2 : ℕ
deriving DecidableEq

/-- The context `fill_conflict_docs_for_one` renders into the conflict
template for one row: the five category totals plus the stripped name. -/
def conflict_context_of_row (columns : List String) (row : String → String)
    (full_name : String) : ConflictContext :=
  let scores := category_scores columns row
  { name := full_name
    Col := scores "Collaborating"
    Com := scores "Competing"
    Avo := scores "Avoiding"
    Acc := scores "Accommodating"
    Co2 := scores "Compromising" }

/-- `fill_conflict_docs_for_one` from `functions.py`, up to the external
docx-render/convert collaborators: filter the CSV rows by exact equality of
the `First and Last Name` cell with the participant name; on no match return
`None` (no document produced), otherwise build the context from the first
matching row (its name cell stripped for display). -/
def fill_conflict_docs_for_one (rows : List (String → String)) (columns : List String)
    (participant_name : String) : Option ConflictContext :=
  let filtered := rows.filter (fun r => decide (r "First and Last Name" = participant_name))
  match filtered with
  | [] => none
  | r :: _ => some (conflict_context_of_row columns r (pyStrip (r "First and Last Name")))

/-- The sum, over one category's question columns present in the CSV, of the
mapped answer values — the specification's description of a category total. -/
def specCategoryTotal (columns : List String) (row : String → String) (cat : String) : ℕ :=
  ((QUESTION_CATEGORIES.filter (fun qc => decide (qc.2 = cat ∧ qc.1 ∈ columns))).map
    (fun qc => SCORE_MAP (pyStrip (row qc.1)))).sum

/-- The per-index page selection of `merge_custom_pages_by_index`: the whole
cover fragment at template index 0, the whole via fragment at 4, the whole
sweet-spot fragment at 8, the whole conflict fragment at 11, and the
template's own page everywhere else (`template.get? i` is `some` for every
index the loop visits). -/
def mergePick (template cover viaDoc sweet conflict : List α) (i : ℕ) : List α :=
  if i = 0 then cover
  else if i = 4 then viaDoc
  else if i = 8 then sweet
  else if i = 11 then conflict
  else (template.get? i).toList

/-- `merge_custom_pages_by_index` from `functions.py`: loop `i` over the
template's page indices, appending the selected pages for each `i`. -/
def merge_custom_pages_by_index (template cover viaDoc sweet conflict : List α) : List α :=
  (List.range template.length).flatMap (mergePick template cover viaDoc sweet conflict)

/-- The four fixed replacement slots of the template family. -/
def slotIndices : List ℕ := [0, 4, 8, 11]

/-- The number of replacement slots whose index lies below `n`. -/
def numSlotsBelow (n : ℕ) : ℕ := (slotIndices.filter (fun j => decide (j < n))).length

/-- The total page count of the fragments whose slot index lies below `n`. -/
def fragPagesBelow (n : ℕ) (cover viaDoc sweet conflict : List α) : ℕ :=
  (if 0 < n then cover.length else 0) + (if 4 < n then viaDoc.length else 0) +
    (if 8 < n then sweet.length else 0) + (if 11 < n then conflict.length else 0)

/-- A page-number stamp as produced by `create_page_number_overlay`: the
rendered text, font, color, the overlay canvas size and the draw position. -/
structure PageOverlay where
  text : String
  font : String
  fontSize : ℕ
  color : String
  canvasWidth : ℚ
  canvasHeight : ℚ
  x : ℚ
  y : ℚ
deriving DecidableEq

/-- A PDF page for pagination: media-box dimensions plus the overlays merged
onto it (`page.merge_page(overlay)` appends an overlay). -/
structure PdfPage where
  width : ℚ
  height : ℚ
  overlays : List PageOverlay
deriving DecidableEq

instance : Inhabited PdfPage := ⟨⟨0, 0, []⟩⟩

/-- `create_page_number_overlay` from `functions.py`: Times-Roman 10pt text of
the page number, drawn at `x = page_width - margin - text_width`, `y = margin`
(lower right, margin 36pt), in white when asked for white and black otherwise.
`stringWidth` abstracts reportlab's font-metric collaborator
`c.stringWidth(text, "Times-Roman", 10)`. -/
def create_page_number_overlay (stringWidth : String → ℚ)
    (page_width page_height : ℚ) (page_number : ℕ)
    (margin : ℚ := 36) (text_color : String := "black") : PageOverlay :=
  let clr := if String.mk (text_color.data.map Char.toLower) = "white" then "white" else "black"
  let text := toString page_number
  let text_width := stringWidth text
  { text := text, font := "Times-Roman", fontSize := 10, color := clr
    canvasWidth := page_width, canvasHeight := page_height
    x := page_width - margin - text_width, y := margin }

/-- `paginate_pdf` from `functions.py`: pages with index below
`start_page_index` pass through unchanged; every later page gets one overlay
with label `start_page_number + (i - start_page_index)`, built from that
page's own media-box dimensions, white for landscape pages
(`page_width > page_height`) and black otherwise. -/
def paginate_pdf (stringWidth : String → ℚ) (pages : List PdfPage)
    (start_page_index : ℕ := 3) (start_page_number : ℕ := 3) : List PdfPage :=
  (List.range pages.length).map fun i =>
    let page := pages.getD i default
    if start_page_index ≤ i then
      let page_number := start_page_number + (i - start_page_index)
      let page_width := page.width
      let page_height := page.height
      let text_color := if page_width > page_height then "white" else "black"
      let overlay :=
        create_page_number_overlay stringWidth page_width page_height page_number 36 text_color
      { page with overlays := page.overlays ++ [overlay] }
    else page

/-- The suffix set of `split_first_last`. -/
def SUFFIXES : List String := ["Jr", "Jr.", "Sr", "Sr.", "II", "III", "IV", "V"]

/-- The trailing-suffix drop `split_first_last` applies to a token list:
`if tokens and tokens[-1] in suffixes: tokens = tokens[:-1]`. -/
def dropTrailingSuffix (tokens : List String) : List String :=
  match tokens.getLast? with
  | some t => if t ∈ SUFFIXES then tokens.dropLast else tokens
  | none => tokens

/-- Python `str.replace` for a nonempty pattern: replace every non-overlapping
occurrence left to right.  `fuel` starts at the input length; every step
consumes at least one character. -/
def charsReplaceAux (pat repl : List Char) : ℕ → List Char → List Char
  | _, [] => []
  | 0, cs => cs
  | fuel + 1, c :: rest =>
    if pat.isPrefixOf (c :: rest) then
      repl ++ charsReplaceAux pat repl fuel ((c :: rest).drop pat.length)
    else
      c :: charsReplaceAux pat repl fuel rest

/-- Python `str.replace` (nonempty pattern). -/
def charsReplace (pat repl cs : List Char) : List Char :=
  charsReplaceAux pat repl cs.length cs

/-- `split_first_last` from `app.py`.  The no-comma branch of the source
indexes `tokens[0]`, which raises `IndexError` on a whitespace-only input;
that unreachable-for-the-claims corner is totalized as `""` via `headD`. -/
def split_first_last (person_name : String) : String × String :=
  if person_name = "" then ("", "")
  else
    let name := normalize_spaces person_name
    let name := pyStrip (String.mk (charsReplace VIA_MARKER [] name.data))
    let nameChars := name.data
    if nameChars.contains ',' then
      -- `name.split(",", 1)`: break at the first comma only
      let last0 := nameChars.takeWhile (fun c => !(c = ','))
      let first0 := (nameChars.dropWhile (fun c => !(c = ','))).tail
      let last := normalize_spaces (String.mk last0)
      let first_part := normalize_spaces (String.mk first0)
      let first_tokens := dropTrailingSuffix ((pyWords first_part.data).map String.mk)
      let first := first_tokens.headD ""
      let last_tokens := dropTrailingSuffix ((pyWords last.data).map String.mk)
      (first, String.intercalate " " last_tokens)
    else
      let tokens := dropTrailingSuffix ((pyWords nameChars).map String.mk)
      if tokens.length = 1 then (tokens.headD "", "")
      else (tokens.headD "", String.intercalate " " tokens.tail)

/-- Python `str.title()` on ASCII text: an alphabetic character is uppercased
when the previous character is not alphabetic and lowercased otherwise;
other characters pass through. -/
def pyTitleAux : Bool → List Char → List Char
  | _, [] => []
  | prevAlpha, c :: rest =>
    let c' := if c.isAlpha then (if prevAlpha then c.toLower else c.toUpper) else c
    c' :: pyTitleAux c.isAlpha rest

/-- Python `str.title()`. -/
def pyTitle (s : String) : String := String.mk (pyTitleAux false s.data)

/-- The template context built by `fill_template` from `functions.py`, up to
the external docx-render/convert collaborators: the `name` key plus, for each
of the 24 rows, `strength{i+1}` holding the title-cased strength at list
position `i` (or `""` past the end of the list) and the three definition keys
looked up from the strength table (blank when the title-cased name is not a
key).  `strength_data` models the `STRENGTH_DATA` dict as a partial map to
(underuse, optimal, overuse). -/
def fill_template_context (parsed_strengths : List (ℕ × String))
    (strength_data : String → Option (String × String × String))
    (person_name : String) : List (String × String) :=
  ("name", person_name) ::
    (List.range 24).flatMap (fun i =>
      let placeholder_index := i + 1
      if h : i < parsed_strengths.length then
        let strength := (parsed_strengths.get ⟨i, h⟩).2
        let strength_title := pyTitle strength
        ("strength" ++ toString placeholder_index, strength_title) ::
          (match strength_data strength_title with
           | some d =>
             [("underuse" ++ toString placeholder_index, d.1),
              ("optimal" ++ toString placeholder_index, d.2.1),
              ("overuse" ++ toString placeholder_index, d.2.2)]
           | none =>
             [("underuse" ++ toString placeholder_index, ""),
              ("optimal" ++ toString placeholder_index, ""),
              ("overuse" ++ toString placeholder_index, "")])
      else
        [("strength" ++ toString placeholder_index, ""),
         ("underuse" ++ toString placeholder_index, ""),
         ("optimal" ++ toString placeholder_index, ""),
         ("overuse" ++ toString placeholder_index, "")])

/-- `strengths_to_row` from `app.py`: strength names ordered by rank (Python's
stable `sorted(results, key=rank)` is modelled by insertion sort on the rank
component), clipped and padded with `""` to `top_n`. -/
def strengths_to_row (results : List (ℕ × String)) (top_n : ℕ := 24) : List String :=
  let strengths :=
    (List.insertionSort (fun a b : ℕ × String => a.1 ≤ b.1) results).map (fun rs => rs.2)
  let strengths := strengths.take top_n
  strengths ++ List.replicate (top_n - strengths.length) ""

/-- `STRENGTH_DATA` from `functions.py`, in insertion order: strength name to
(underuse, optimal, overuse). -/
def STRENGTH_DATA_LIST : List (String × String × String × String) :=
  [("Spirituality", "lack of purpose; disconnected from sacred",
      "finding purpose; pursuing life meaning/connecting with sacred",
      "fanatical; preachy; rigid values"),
   ("Gratitude", "entitled; unappreciative", "attitude of thankfulness",
      "ingratiation; profuse; repetitive"),
   ("Hope", "negative; pessimistic; despair", "positive expectations; optimistic",
      "blind optimism, unrealistic"),
   ("Humor", "overly serious", "offering laughter to others; playful",
      "giddy; tasteless/offensive"),
   ("Kindness", "indifferent; selfish; mean", "compassionate; doing for others",
      "intrusive; compassion-fatigue"),
   ("Love", "afraid to care; not relating", "genuine, reciprocal warmth",
      "sugary sweet; touchy-feely"),
   ("Bravery", "cowardly; unwilling to be vulnerable",
      "facing fears, confronting adversity", "foolish, overconfident"),
   ("Curiosity", "uninterested; self-involved", "explorer; novelty-seeker; open",
      "nosy; self-serving"),
   ("Love Of Learning", "complacent with knowledge", "information-seeking",
      "know-it-all"),
   ("Perspective", "shallow; superficial", "sees/offers the wider view; wise",
      "overbearing; arrogant"),
   ("Creativity", "plain/dull; unimaginative", "original; clever; imaginative",
      "eccentric; odd; scattered"),
   ("Judgment", "illogical; unreflective; closed-minded",
      "analytical; rational; open-minded; logical",
      "narrow-minded; rigid; indecisive"),
   ("Zest", "sedentary; passive; tired", "enthusiasm for life; happy; active",
      "hyper; overactive; annoying"),
   ("Perseverance", "lazy; helpless; giving up", "persistent; overcomes all obstacles",
      "obsessive; stubborn"),
   ("Honesty", "phony; dishonest; inauthentic", "authentic; truth sharer and seeker",
      "self-righteous; rude"),
   ("Leadership", "compliant; follower; passive", "positively influencing others",
      "bossy; controlling; authoritarian"),
   ("Teamwork", "self-serving; individualistic",
      "collaborative; loyal; socially responsible;",
      "dependent; blind obedience; loss of individuality"),
   ("Fairness", "bias; partial treatment", "equitable decisions; impartial justice",
      "indecisive on justice issues"),
   ("Forgiveness", "merciless; vengeful", "letting go of hurt when wronged",
      "permissive; too lenient or soft"),
   ("Humility", "arrogant; self-focused", "others-focused; modest",
      "limited self-image; subservient"),
   ("Prudence", "reckless; acting before thinking", "wisely cautious; planful",
      "stuffy; rigid"),
   ("Self-Regulation", "self-indulgent; undisciplined", "self-manager of vices",
      "inhibited; tightly wound"),
   ("Appreciation Of Beauty & Excellence", "oblivious; mindlessness",
      "seeing the life behind things; awe/wonder in presence of beauty",
      "snobbery or perfectionistic; unrelenting standards"),
   ("Social Intelligence", "clueless; insensitive", "empathic; tuned in, then savvy",
      "over-analytical; overly sensitive")]

/-- `STRENGTH_DATA` as the lookup map `fill_template` consults
(`strength_title in strength_data` / `strength_data[strength_title]`). -/
def STRENGTH_DATA (k : String) : Option (String × String × String) :=
  (STRENGTH_DATA_LIST.find? (fun e => e.1 = k)).map (fun e => e.2)

/-! ### Page assembly: claims C1 and C2 -/

theorem numSlotsBelow_eq (n : ℕ) :
    numSlotsBelow n =
      (if 0 < n then 1 else 0) + (if 4 < n then 1 else 0) +
        (if 8 < n then 1 else 0) + (if 11 < n then 1 else 0) := by
  by_cases h0 : 0 < n <;> by_cases h4 : 4 < n <;> by_cases h8 : 8 < n <;>
    by_cases h11 : 11 < n <;>
      simp [numSlotsBelow, slotIndices, List.filter_cons, h0, h4, h8, h11]

theorem numSlotsBelow_le (n : ℕ) : numSlotsBelow n ≤ n := by
  rw [numSlotsBelow_eq]; split_ifs <;> omega

theorem merge_len_aux {α : Type _} (t c v s f : List α) :
    ∀ n, n ≤ t.length →
      ((List.range n).flatMap (mergePick t c v s f)).length + numSlotsBelow n =
        n + fragPagesBelow n c v s f := by
  intro n
  induction n with
  | zero =>
    intro _
    have k0 : numSlotsBelow 0 = 0 := by decide
    have s0 : fragPagesBelow 0 c v s f = 0 := by simp [fragPagesBelow]
    simp [k0, s0]
  | succ n ih =>
    intro h
    have hlt : n < t.length := h
    have ihe := ih (Nat.le_of_succ_le h)
    rw [List.range_succ, List.flatMap_append, List.length_append]
    have hsing : ([n].flatMap (mergePick t c v s f)).length =
        (mergePick t c v s f n).length := by simp
    rw [hsing]
    by_cases h0 : n = 0
    · subst h0
      have p0 : (mergePick t c v s f 0).length = c.length := rfl
      have k0 : numSlotsBelow 0 = 0 := by decide
      have k1 : numSlotsBelow (0 + 1) = 1 := by decide
      have s0 : fragPagesBelow 0 c v s f = 0 := by simp [fragPagesBelow]
      have s1 : fragPagesBelow (0 + 1) c v s f = c.length := by simp [fragPagesBelow]
      omega
    · by_cases h4 : n = 4
      · subst h4
        have p4 : (mergePick t c v s f 4).length = v.length := rfl
        have k4 : numSlotsBelow 4 = 1 := by decide
        have k5 : numSlotsBelow (4 + 1) = 2 := by decide
        have s4 : fragPagesBelow 4 c v s f = c.length := by simp [fragPagesBelow]
        have s5 : fragPagesBelow (4 + 1) c v s f = c.length + v.length := by
          simp [fragPagesBelow]
        omega
      · by_cases h8 : n = 8
        · subst h8
          have p8 : (mergePick t c v s f 8).length = s.length := rfl
          have k8 : numSlotsBelow 8 = 2 := by decide
          have k9 : numSlotsBelow (8 + 1) = 3 := by decide
          have s8 : fragPagesBelow 8 c v s f = c.length + v.length := by
            simp [fragPagesBelow]
          have s9 : fragPagesBelow (8 + 1) c v s f = c.length + v.length + s.length := by
            simp [fragPagesBelow]
          omega
        · by_cases h11 : n = 11
          · subst h11
            have p11 : (mergePick t c v s f 11).length = f.length := rfl
            have k11 : numSlotsBelow 11 = 3 := by decide
            have k12 : numSlotsBelow (11 + 1) = 4 := by decide
            have s11 : fragPagesBelow 11 c v s f = c.length + v.length + s.length := by
              simp [fragPagesBelow]
            have s12 : fragPagesBelow (11 + 1) c v s f =
                c.length + v.length + s.length + f.length := by
              simp [fragPagesBelow]
            omega
          · have hget : t.get? n = some (t.get ⟨n, hlt⟩) := List.get?_eq_get hlt
            have e0 : (0 < n + 1) ↔ (0 < n) := by omega
            have e4 : (4 < n + 1) ↔ (4 < n) := by omega
            have e8 : (8 < n + 1) ↔ (8 < n) := by omega
            have e11 : (11 < n + 1) ↔ (11 < n) := by omega
            have hlen : (mergePick t c v s f n).length = 1 := by
              unfold mergePick
              rw [if_neg h0, if_neg h4, if_neg h8, if_neg h11, hget]
              rfl
            have hk : numSlotsBelow (n + 1) = numSlotsBelow n := by
              rw [numSlotsBelow_eq, numSlotsBelow_eq]
              simp only [e0, e4, e8, e11]
            have hs : fragPagesBelow (n + 1) c v s f = fragPagesBelow n c v s f := by
              unfold fragPagesBelow
              simp only [e0, e4, e8, e11]
            omega

/-- Claim C1: for a template with `n` pages and any four fragments, the
assembled output is exactly the concatenation, over template indices
`i = 0..n-1` in order, of all cover pages at `i = 0`, all via pages at
`i = 4`, all sweet-spot pages at `i = 8`, all conflict pages at `i = 11`,
and the unmodified template page `i` otherwise; consequently the output
page count is `n` minus the number of slot indices below `n` plus the
total page count of the fragments at slots below `n`. -/
theorem merge_custom_pages_spec {α : Type _} (t c v s f : List α) (n : ℕ)
    (h : t.length = n) :
    merge_custom_pages_by_index t c v s f =
      (List.range n).flatMap (fun i =>
        if i = 0 then c else if i = 4 then v else if i = 8 then s
        else if i = 11 then f else (t.get? i).toList) ∧
    (merge_custom_pages_by_index t c v s f).length =
      n - numSlotsBelow n + fragPagesBelow n c v s f := by
  subst h
  refine ⟨rfl, ?_⟩
  have hmain := merge_len_aux t c v s f t.length le_rfl
  have hle := numSlotsBelow_le t.length
  unfold merge_custom_pages_by_index
  omega

/-- Witness for C1: a 13-page template with a 3-page fragment at slot 4 and
single-page fragments at the other slots yields a 15-page output. -/
theorem merge_custom_pages_spec_witness :
    (List.range 13 : List ℕ).length = 13 ∧
    (merge_custom_pages_by_index (List.range 13) [100] [200, 201, 202] [300] [400]).length =
      13 - numSlotsBelow 13 + fragPagesBelow 13 [100] [200, 201, 202] [300] [(400 : ℕ)] ∧
    13 - numSlotsBelow 13 + fragPagesBelow 13 [100] [200, 201, 202] [300] [(400 : ℕ)] = 15 :=
  ⟨by decide,
   (merge_custom_pages_spec (List.range 13) [100] [200, 201, 202] [300] [400] 13 (by decide)).2,
   by decide⟩

theorem flatMap_eq_of_eq_on {α β : Type _} (l : List α) (g1 g2 : α → List β)
    (h : ∀ a ∈ l, g1 a = g2 a) : l.flatMap g1 = l.flatMap g2 := by
  induction l with
  | nil => rfl
  | cons a l ih =>
    simp only [List.flatMap_cons]
    rw [h a (by simp), ih (fun x hx => h x (by simp [hx]))]

/-- Counterexample to claim C2 as stated: on a 2-page template (fewer than 12
pages) assembly completes normally with a well-defined output — the cover
fragment replaces page 0 and page 1 passes through — instead of failing with
an out-of-range error. -/
theorem merge_short_template_completes :
    merge_custom_pages_by_index [10, 20] [1] [2] [3] [(4 : ℕ)] = [1, 20] ∧
    (merge_custom_pages_by_index [10, 20] [1] [2] [3] [(4 : ℕ)]).length = 2 := by
  decide

/-- Claim C2 (amended): when the template has fewer than 12 pages, assembly
does not fail; the loop simply never reaches slot 11, so it completes
normally and the output does not depend on the conflict fragment at all. -/
theorem merge_short_template_ignores_conflict {α : Type _} (t c v s f f' : List α)
    (h : t.length < 12) :
    merge_custom_pages_by_index t c v s f = merge_custom_pages_by_index t c v s f' := by
  unfold merge_custom_pages_by_index
  apply flatMap_eq_of_eq_on
  intro a ha
  have h11 : a ≠ 11 := by
    have := List.mem_range.mp ha
    omega
  unfold mergePick
  simp only [if_neg h11]

/-- Witness for the amended C2: a 2-page template assembled with conflict
fragment `[4]` and with conflict fragment `[99]` gives the same output. -/
theorem merge_short_template_ignores_conflict_witness :
    ([10, 20] : List ℕ).length < 12 ∧
    merge_custom_pages_by_index [10, 20] [1] [2] [3] [(4 : ℕ)] =
      merge_custom_pages_by_index [10, 20] [1] [2] [3] [99] :=
  ⟨by decide, merge_short_template_ignores_conflict _ _ _ _ _ _ (by decide)⟩

/-! ### Identity matching: claim C3 -/

/-- Claim C3: the two matching passes of Batch mode can disagree — there is a
collection of roster names and document names for which the second
(document-to-roster) pass classifies a document name as having a roster match
(it is not reported in `missing_csv`), while the first pass's `matched_pairs`
does not contain that document name in any pair. -/
theorem matcher_second_pass_disagrees :
    ∃ (csv_names : List String) (pdf_names : List (String × String))
      (fname pname : String),
      (fname, pname) ∈ pdf_names ∧
      pdf_has_csv_match csv_names pname = true ∧
      pname ∉ missing_csv csv_names pdf_names ∧
      ∀ pr ∈ matched_pairs csv_names pdf_names, pr.2.1 ≠ pname := by
  refine ⟨["Jon Smith"], [("a.pdf", "Jon Smith"), ("b.pdf", "John Smith")],
    "b.pdf", "John Smith", ?_, ?_, ?_, ?_⟩ <;> decide

/-! ### Name splitting: claim C8 -/

/-- Claim C8: the five specification examples of `split_first_last`. -/
theorem split_first_last_examples :
    split_first_last "Smith, Jon A." = ("Jon", "Smith") ∧
    split_first_last "Jon A. Smith" = ("Jon", "A. Smith") ∧
    split_first_last "Madonna" = ("Madonna", "") ∧
    split_first_last "Smith Jr., John" = ("John", "Smith") ∧
    split_first_last "" = ("", "") := by
  decide

/-! ### Conflict scoring: claims C9 and C10 -/

theorem category_scores_foldl_eq (columns : List String) (row : String → String)
    (cat : String) :
    ∀ (qs : List (String × String)) (init : String → ℕ),
      (qs.foldl
        (fun scores qc =>
          if qc.1 ∈ columns then
            fun c => if c = qc.2 then scores c + SCORE_MAP (pyStrip (row qc.1)) else scores c
          else scores)
        init) cat =
      init cat +
        ((qs.filter (fun qc => decide (qc.2 = cat ∧ qc.1 ∈ columns))).map
          (fun qc => SCORE_MAP (pyStrip (row qc.1)))).sum := by
  have stepval : ∀ (g : String → ℕ) (qc : String × String),
      (if qc.1 ∈ columns then
          fun c => if c = qc.2 then g c + SCORE_MAP (pyStrip (row qc.1)) else g c
        else g) cat =
        g cat + (if qc.2 = cat ∧ qc.1 ∈ columns then SCORE_MAP (pyStrip (row qc.1)) else 0) := by
    intro g qc
    by_cases ha : qc.1 ∈ columns
    · rw [if_pos ha]
      show (if cat = qc.2 then g cat + SCORE_MAP (pyStrip (row qc.1)) else g cat) =
        g cat + (if qc.2 = cat ∧ qc.1 ∈ columns then SCORE_MAP (pyStrip (row qc.1)) else 0)
      by_cases hb : qc.2 = cat
      · rw [if_pos hb.symm, if_pos ⟨hb, ha⟩]
      · rw [if_neg (fun hh => hb hh.symm), if_neg (fun hc => hb hc.1)]
        omega
    · rw [if_neg ha, if_neg (fun hc => ha hc.2)]
      omega
  intro qs
  induction qs with
  | nil => intro init; simp
  | cons q qs ih =>
    intro init
    rw [List.foldl_cons, ih, stepval]
    by_cases hP : (q.2 = cat ∧ q.1 ∈ columns)
    · have hd : decide (q.2 = cat ∧ q.1 ∈ columns) = true := by simp [hP]
      rw [if_pos hP]
      simp only [List.filter_cons, hd, eq_self_iff_true, if_true, List.map_cons, List.sum_cons]
      omega
    · have hd : decide (q.2 = cat ∧ q.1 ∈ columns) = false := decide_eq_false hP
      rw [if_neg hP]
      simp only [List.filter_cons, hd, Bool.false_eq_true, if_false]
      omega

/-- Claim C9: for every processed roster row, each of the five category totals
passed to the conflict template (`Col`/`Com`/`Avo`/`Acc`/`Co2`) equals the
sum, over that category's question columns present in the CSV, of the answer
value mapped by Rarely→1, Sometimes→2, Often→3, Always→4, with every
unrecognized or missing answer contributing 0. -/
theorem conflict_category_totals_spec (columns : List String) (row : String → String)
    (nm : String) :
    (conflict_context_of_row columns row nm).Col = specCategoryTotal columns row "Collaborating" ∧
    (conflict_context_of_row columns row nm).Com = specCategoryTotal columns row "Competing" ∧
    (conflict_context_of_row columns row nm).Avo = specCategoryTotal columns row "Avoiding" ∧
    (conflict_context_of_row columns row nm).Acc = specCategoryTotal columns row "Accommodating" ∧
    (conflict_context_of_row columns row nm).Co2 = specCategoryTotal columns row "Compromising" ∧
    ∀ a, SCORE_MAP a =
      if a = "Rarely" then 1 else if a = "Sometimes" then 2
      else if a = "Often" then 3 else if a = "Always" then 4 else 0 := by
  refine ⟨?_, ?_, ?_, ?_, ?_, fun a => rfl⟩ <;>
  · show category_scores columns row _ = _
    unfold category_scores specCategoryTotal
    rw [category_scores_foldl_eq]
    omega

theorem head?_filter_eq_find? {α : Type _} (p : α → Bool) (l : List α) :
    (l.filter p).head? = l.find? p := by
  induction l with
  | nil => rfl
  | cons a l ih =>
    rw [List.filter_cons, List.find?_cons]
    by_cases h : p a
    · simp [h]
    · simp [h, ih]

/-- Claim C10: `fill_conflict_docs_for_one` produces a conflict document iff
some CSV row's `First and Last Name` cell is character-for-character equal to
the participant name — no fuzzy matching and no whitespace trimming before
the comparison (a row holding `" Jon Smith "` does not match `"Jon Smith"`);
with no matching row it returns `none` without raising, and with several
matching rows only the first one is used. -/
theorem fill_conflict_one_spec (rows : List (String → String)) (columns : List String)
    (nm : String) :
    fill_conflict_docs_for_one rows columns nm =
      (rows.find? (fun r => decide (r "First and Last Name" = nm))).map
        (fun r => conflict_context_of_row columns r (pyStrip (r "First and Last Name"))) ∧
    (fill_conflict_docs_for_one rows columns nm = none ↔
      ∀ r ∈ rows, r "First and Last Name" ≠ nm) ∧
    fill_conflict_docs_for_one [fun _ => " Jon Smith "] columns "Jon Smith" = none := by
  have key : ∀ (rs : List (String → String)) (m : String),
      fill_conflict_docs_for_one rs columns m =
        ((rs.filter (fun r => decide (r "First and Last Name" = m))).head?).map
          (fun r => conflict_context_of_row columns r (pyStrip (r "First and Last Name"))) := by
    intro rs m
    unfold fill_conflict_docs_for_one
    cases hF : rs.filter (fun r => decide (r "First and Last Name" = m)) <;> simp [hF]
  refine ⟨?_, ?_, ?_⟩
  · rw [key, head?_filter_eq_find?]
  · rw [key, head?_filter_eq_find?]
    simp [Option.map_eq_none', List.find?_eq_none]
  · rw [key]
    have hne : decide (((fun _ => " Jon Smith ") : String → String) "First and Last Name"
        = "Jon Smith") = false := by decide
    simp [List.filter_cons, hne]

/-! ### Strengths summary: claim C5 -/

/-- Counterexample to claim C5 as stated: with extracted traits
`[(2, "Humor"), (1, "Zest")]` the trait of lowest rank is `"Zest"`, yet
`fill_template` puts `"Humor"` — the trait at list position 0 — into
`strength1`; the order is list position, not ascending rank (the
ascending-rank order is visible in `strengths_to_row`, which puts `"Zest"`
first). -/
theorem fill_template_rank_order_counterexample :
    ("strength" ++ toString 1, "Humor") ∈
      fill_template_context [(2, "Humor"), (1, "Zest")] STRENGTH_DATA "X" ∧
    ("strength" ++ toString 1, "Zest") ∉
      fill_template_context [(2, "Humor"), (1, "Zest")] STRENGTH_DATA "X" ∧
    strengths_to_row [(2, "Humor"), (1, "Zest")] 24 =
      "Zest" :: "Humor" :: List.replicate 22 "" := by
  refine ⟨?_, ?_, ?_⟩ <;> decide

/-- Claim C5 (amended): `fill_template` fills `strength{i+1}` with the
extracted trait at list position `i` (title-cased), padding with blanks when
fewer traits exist — list position, not the rank integer, determines the
order; ordering by ascending rank (gaps allowed, stable for ties) is applied
only by the spreadsheet exporter `strengths_to_row`, which clips and pads to
24 entries. -/
theorem fill_template_positional_spec (parsed : List (ℕ × String))
    (sd : String → Option (String × String × String)) (nm : String) (i : ℕ)
    (h : i < 24) :
    ("strength" ++ toString (i + 1),
        if h2 : i < parsed.length then pyTitle (parsed.get ⟨i, h2⟩).2 else "") ∈
      fill_template_context parsed sd nm ∧
    (strengths_to_row parsed 24).length = 24 ∧
    strengths_to_row [(2, "Humor"), (1, "Zest")] 24 =
      "Zest" :: "Humor" :: List.replicate 22 "" := by
  refine ⟨?_, ?_, by decide⟩
  · unfold fill_template_context
    apply List.mem_cons_of_mem
    rw [List.mem_flatMap]
    refine ⟨i, List.mem_range.mpr h, ?_⟩
    by_cases h2 : i < parsed.length
    · simp only [dif_pos h2]
      exact List.mem_cons_self _ _
    · simp only [dif_neg h2]
      exact List.mem_cons_self _ _
  · simp only [strengths_to_row, List.length_append, List.length_replicate,
      List.length_take, List.length_map]
    omega

/-- Witness for the amended C5 at position 0 of `[(2, "Humor"), (1, "Zest")]`
with the real `STRENGTH_DATA` table. -/
theorem fill_template_positional_spec_witness :
    ("strength" ++ toString (0 + 1),
        if h2 : 0 < ([((2 : ℕ), "Humor"), (1, "Zest")] : List (ℕ × String)).length then
          pyTitle (([((2 : ℕ), "Humor"), (1, "Zest")] : List (ℕ × String)).get ⟨0, h2⟩).2
        else "") ∈
      fill_template_context [(2, "Humor"), (1, "Zest")] STRENGTH_DATA "X" ∧
    (strengths_to_row [((2 : ℕ), "Humor"), (1, "Zest")] 24).length = 24 ∧
    strengths_to_row [((2 : ℕ), "Humor"), (1, "Zest")] 24 =
      "Zest" :: "Humor" :: List.replicate 22 "" :=
  fill_template_positional_spec [(2, "Humor"), (1, "Zest")] STRENGTH_DATA "X" 0
    (by decide)

/-! ### Pagination: claims C6 and C7 -/

/-- Claim C6: pagination preserves page count and order; pages before
`start_page_index` pass through unstamped, and every page at index
`i ≥ start_page_index` carries exactly one added stamp labelled
`start_page_number + (i - start_page_index)`, placed at the fixed margin
from the page's own dimensions (`x = width - 36 - text_width`, `y = 36`),
in white ink when the page's width exceeds its height and black ink
otherwise. -/
theorem paginate_pdf_spec (sw : String → ℚ) (pages : List PdfPage) (s n : ℕ) :
    (paginate_pdf sw pages s n).length = pages.length ∧
    ∀ i, (paginate_pdf sw pages s n).get? i =
      (pages.get? i).map (fun page =>
        if i < s then page
        else
          { page with
              overlays := page.overlays ++
                [{ text := toString (n + (i - s)), font := "Times-Roman", fontSize := 10,
                   color := if page.width > page.height then "white" else "black",
                   canvasWidth := page.width, canvasHeight := page.height,
                   x := page.width - 36 - sw (toString (n + (i - s))), y := 36 }] }) := by
  have hwhite : (String.mk ("white".data.map Char.toLower)) = "white" := by decide
  have hblack : (String.mk ("black".data.map Char.toLower)) ≠ "white" := by decide
  constructor
  · simp [paginate_pdf]
  · intro i
    by_cases hi : i < pages.length
    · have hget : pages.get? i = some (pages.get ⟨i, hi⟩) := List.get?_eq_get hi
      have hD : pages.getD i default = pages.get ⟨i, hi⟩ := by
        rw [List.getD_eq_getD_get?, hget]
        rfl
      unfold paginate_pdf
      rw [List.get?_map, List.get?_range hi, Option.map_some', hget, Option.map_some']
      dsimp only
      rw [hD]
      by_cases his : i < s
      · rw [if_neg (by omega : ¬ s ≤ i), if_pos his]
      · rw [if_pos (by omega : s ≤ i), if_neg his]
        unfold create_page_number_overlay
        by_cases hwh : (pages.get ⟨i, hi⟩).width > (pages.get ⟨i, hi⟩).height
        · rw [if_pos hwh]
          simp [hwhite]
        · rw [if_neg hwh]
          simp [hblack]
    · have h1 : pages.get? i = none := List.get?_eq_none.mpr (by omega)
      have h2 : (paginate_pdf sw pages s n).get? i = none := by
        apply List.get?_eq_none.mpr
        simp only [paginate_pdf, List.length_map, List.length_range]
        omega
      rw [h1, h2]
      rfl

/-- Claim C7: pagination is not idempotent — there is a document (one
792×612-point landscape-free page, stamped from index 0) on which running
the paginator twice with the same parameters differs from running it once:
the second run appends a second overlay to the already-stamped page. -/
theorem paginate_pdf_not_idempotent :
    ∃ (sw : String → ℚ) (pages : List PdfPage) (s n : ℕ),
      paginate_pdf sw (paginate_pdf sw pages s n) s n ≠ paginate_pdf sw pages s n := by
  refine ⟨fun _ => 0, [⟨612, 792, []⟩], 0, 1, fun hEq => ?_⟩
  have h1 := congrArg (fun l : List PdfPage => ((l.headD default).overlays).length) hEq
  simp [paginate_pdf, create_page_number_overlay, List.range_succ] at h1

/-! ### Identity extraction: claim C4 -/

theorem dropWhile_head_not {α : Type _} (p : α → Bool) (l : List α) :
    ∀ c ∈ (l.dropWhile p).head?, p c = false := by
  induction l with
  | nil => simp
  | cons a l ih =>
    by_cases h : p a
    · simpa [List.dropWhile_cons, h] using ih
    · simp [List.dropWhile_cons, h]

theorem dropWhile_eq_self_of_head {α : Type _} (p : α → Bool) (l : List α)
    (h : ∀ c ∈ l.head?, p c = false) : l.dropWhile p = l := by
  cases l with
  | nil => rfl
  | cons a l => simp [List.dropWhile_cons, h a (by simp)]

theorem getLast?_dropWhile_of_ne_nil {α : Type _} (p : α → Bool) :
    ∀ l : List α, l.dropWhile p ≠ [] → (l.dropWhile p).getLast? = l.getLast? := by
  intro l
  induction l with
  | nil => intro h; exact absurd rfl h
  | cons a l ih =>
    intro h
    by_cases hp : p a
    · rw [List.dropWhile_cons, if_pos hp] at h ⊢
      cases l with
      | nil => exact absurd rfl h
      | cons b l2 =>
        rw [List.getLast?_cons_cons]
        exact ih h
    · rw [List.dropWhile_cons, if_neg hp]

theorem pyStripChars_idem (l : List Char) :
    pyStripChars (pyStripChars l) = pyStripChars l := by
  by_cases hnil : ((l.dropWhile isPySpace).reverse.dropWhile isPySpace) = []
  · have h0 : pyStripChars l = [] := by
      unfold pyStripChars
      rw [hnil]
      rfl
    rw [h0]
    rfl
  · have hhead : ∀ c ∈ (pyStripChars l).head?, isPySpace c = false := by
      intro c hc
      unfold pyStripChars at hc
      rw [List.head?_reverse] at hc
      rw [getLast?_dropWhile_of_ne_nil isPySpace _ hnil, List.getLast?_reverse] at hc
      exact dropWhile_head_not isPySpace l c hc
    have hlast : ∀ c ∈ ((pyStripChars l).reverse).head?, isPySpace c = false := by
      intro c hc
      unfold pyStripChars at hc
      rw [List.reverse_reverse] at hc
      exact dropWhile_head_not isPySpace (l.dropWhile isPySpace).reverse c hc
    show (((pyStripChars l).dropWhile isPySpace).reverse.dropWhile isPySpace).reverse =
      pyStripChars l
    rw [dropWhile_eq_self_of_head isPySpace _ hhead,
      dropWhile_eq_self_of_head isPySpace _ hlast, List.reverse_reverse]

theorem traitMatchAt_label_stripped (cs : List Char) (r : ℕ) (lbl : String)
    (rest : List Char) (h : traitMatchAt cs = some ((r, lbl), rest)) :
    lbl = String.mk (pyStripChars lbl.data) := by
  have key : ∀ (l0 : List Char), lbl = String.mk (pyStripChars l0) →
      lbl = String.mk (pyStripChars lbl.data) := by
    intro l0 hl
    rw [hl]
    show String.mk (pyStripChars l0) = String.mk (pyStripChars (pyStripChars l0))
    rw [pyStripChars_idem]
  simp only [traitMatchAt] at h
  split at h
  · exact absurd h (by simp)
  · split at h
    · split at h
      · exact absurd h (by simp)
      · split at h
        · obtain ⟨⟨h1, h2⟩, h3⟩ := by
            simpa using h
          exact key _ h2.symm
        · split at h
          · obtain ⟨⟨h1, h2⟩, h3⟩ := by
              simpa using h
            exact key _ h2.symm
          · exact absurd h (by simp)
    · exact absurd h (by simp)

theorem traitScanAux_labels :
    ∀ (fuel : ℕ) (cs : List Char) (rl : ℕ × String), rl ∈ traitScanAux fuel cs →
      rl.2 = String.mk (pyStripChars rl.2.data) := by
  intro fuel
  induction fuel with
  | zero =>
    intro cs rl h
    simp [traitScanAux] at h
  | succ fuel ih =>
    intro cs rl h
    cases cs with
    | nil => simp [traitScanAux] at h
    | cons c rest =>
      rw [traitScanAux] at h
      cases hm : traitMatchAt (c :: rest) with
      | none =>
        rw [hm] at h
        exact ih rest rl h
      | some pr =>
        obtain ⟨⟨r0, lbl0⟩, rest'⟩ := pr
        rw [hm] at h
        rcases List.mem_cons.mp h with heq | hmem
        · subst heq
          exact traitMatchAt_label_stripped _ _ _ _ hm
        · exact ih rest' rl hmem

theorem findNameLine_eq_find? :
    ∀ lines : List (List Char),
      findNameLine lines =
        ((lines.zip lines.tail).find? (fun p => VIA_MARKER.isPrefixOf p.2)).map
          (fun p => p.1) := by
  intro lines
  induction lines with
  | nil => rfl
  | cons a rest ih =>
    cases rest with
    | nil => rfl
    | cons b rest2 =>
      simp only [findNameLine, List.tail_cons, List.zip_cons_cons, List.find?_cons]
      by_cases hp : VIA_MARKER.isPrefixOf b
      · simp [hp]
      · simp only [hp]
        rw [ih]
        simp [List.tail_cons]

/-- Claim C4: `parse_via_pdf` returns the pair `(name, traits)` where the
name is the whitespace-collapsed content of the first line immediately
preceding the literal marker `"VIA Character Strengths Profile"` (the
sentinel `"Unknown"` when no such line exists), and the traits are all
matches of `<integer>. <rest of line>` in document order, each as
`(parsed rank, stripped label)`, with no uniqueness or contiguity enforced
(ranks may repeat and need not be in order); empty text yields
`("Unknown", [])` and the function is total — it never raises. -/
theorem parse_via_pdf_spec (text : String) :
    (parse_via_pdf text).1 =
      (match ((text.data.splitOn '\n').zip (text.data.splitOn '\n').tail).find?
          (fun p => VIA_MARKER.isPrefixOf p.2) with
        | some p => viaCleanName p.1
        | none => "Unknown") ∧
    (∀ rl ∈ (parse_via_pdf text).2, rl.2 = String.mk (pyStripChars rl.2.data)) ∧
    parse_via_pdf "" = ("Unknown", []) ∧
    (parse_via_pdf "1. Curiosity\n2. Humor\n3. Zest").2 =
      [(1, "Curiosity"), (2, "Humor"), (3, "Zest")] ∧
    (parse_via_pdf "Jane  Q.  Public\nVIA Character Strengths Profile").1 =
      "Jane Q. Public" ∧
    (parse_via_pdf "5. Humor\n1. Zest\n5. Hope").2 =
      [(5, "Humor"), (1, "Zest"), (5, "Hope")] := by
  refine ⟨?_, ?_, by decide, by decide, by decide, by decide⟩
  · show extract_name text = _
    unfold extract_name
    rw [findNameLine_eq_find?]
    cases hf : ((text.data.splitOn '\n').zip (text.data.splitOn '\n').tail).find?
        (fun p => VIA_MARKER.isPrefixOf p.2) <;> simp [hf]
  · intro rl hrl
    exact traitScanAux_labels _ _ rl hrl
